import Mathlib

/-!
Verification of the openhsi_ros2 hyperspectral camera node
(`src/openhsi_ros2/hyperspec_node.py`).

Shallow embedding conventions:
* Python floats are modelled as rationals (`ℚ`).
* Stateful classes become Lean structures with explicit state-passing
  operations; `time.time()` becomes an explicit `now : ℚ` argument.
* Code that can raise returns `Option`/`Except`.
* `numpy` 2D arrays are modelled as `List (List ℚ)` (rows).
-/

namespace OpenHSI

/-! ## FrameQueue (hyperspec_node.py, lines 995-1077)

`FrameQueue.__init__` requires `maxsize > 0` and starts with an empty
queue and a zero dropped counter.  `FrameQueue.put` tries a non-blocking
put; on `queue.Full` it removes the oldest entry, increments the dropped
counter, inserts the new entry and returns `False`.  Executed
sequentially (one caller at a time), the inner `Empty`/`Full` exceptions
of the full branch cannot fire, so the sequential semantics is the one
embedded here.  The buffer list is kept oldest-first. -/

structure FrameQueue (α : Type) where
  maxsize : Nat
  queue : List (α × ℚ)
  dropped : Nat

def FrameQueue.empty (α : Type) (maxsize : Nat) : FrameQueue α :=
  { maxsize := maxsize, queue := [], dropped := 0 }

def FrameQueue.put {α : Type} (q : FrameQueue α) (frame : α) (timestamp : ℚ) :
    Bool × FrameQueue α :=
  if q.queue.length < q.maxsize then
    (true, { q with queue := q.queue ++ [(frame, timestamp)] })
  else
    (false, { q with queue := q.queue.tail ++ [(frame, timestamp)],
                     dropped := q.dropped + 1 })

def FrameQueue.putAll {α : Type} (q : FrameQueue α) (items : List (α × ℚ)) :
    FrameQueue α :=
  items.foldl (fun acc it => (acc.put it.1 it.2).2) q

def FrameQueue.get {α : Type} (q : FrameQueue α) :
    Option ((α × ℚ) × FrameQueue α) :=
  match q.queue with
  | [] => none
  | x :: rest => some (x, { q with queue := rest })

/-! ## AutoExposureController (hyperspec_node.py, lines 65-253)

`__init__` stores `sorted(exposure_presets_ms)` (Python's stable
ascending sort, embedded as insertion sort with `≤`), snaps the initial
exposure to the closest preset via `_find_closest_preset_index`
(`differences.index(min(differences))`), and starts with an empty
statistics deque (`maxlen=100`), `last_adjustment_time = time.time()`
and a zero adjustment counter.  `min` of an empty list raises in
Python, hence the `Option` result of `findClosestPresetIndex` and of
construction. -/

/-- Python's `min(list)`: `none` on the empty list (where Python raises). -/
def pyMin : List ℚ → Option ℚ
  | [] => none
  | x :: xs =>
    some (match pyMin xs with
          | none => x
          | some m => min x m)

/-- Python's `list.index(a)`: index of the first occurrence of `a`. -/
def pyIndex (a : ℚ) : List ℚ → Nat
  | [] => 0
  | x :: xs => if x = a then 0 else pyIndex a xs + 1

/-- `AutoExposureController._find_closest_preset_index` (lines 121-132):
`differences = [abs(preset - exposure_ms) for preset in presets]` followed
by `differences.index(min(differences))`. -/
def findClosestPresetIndex (presets : List ℚ) (exposure_ms : ℚ) : Option Nat :=
  let differences := presets.map (fun preset => |preset - exposure_ms|)
  (pyMin differences).map (fun m => pyIndex m differences)

structure AutoExposureController where
  exposure_presets_ms : List ℚ
  low_threshold : ℚ
  high_threshold : ℚ
  evaluation_window : ℚ
  min_samples : Nat
  current_preset_index : Nat
  current_exposure_ms : ℚ
  mean_buffer : List ℚ
  last_adjustment_time : ℚ
  adjustment_count : Nat

/-- `AutoExposureController.__init__` (lines 73-119).  Note: the
constructor performs no threshold validation; `now` stands for
`time.time()`. -/
def AutoExposureController.init (exposure_presets_ms : List ℚ)
    (initial_exposure_ms : ℚ) (low_signal_threshold : ℚ)
    (high_signal_threshold : ℚ) (evaluation_window_sec : ℚ)
    (min_samples_for_decision : Nat) (now : ℚ) :
    Option AutoExposureController :=
  let presets := exposure_presets_ms.insertionSort (· ≤ ·)
  (findClosestPresetIndex presets initial_exposure_ms).map (fun idx =>
    { exposure_presets_ms := presets
      low_threshold := low_signal_threshold
      high_threshold := high_signal_threshold
      evaluation_window := evaluation_window_sec
      min_samples := min_samples_for_decision
      current_preset_index := idx
      current_exposure_ms := presets.getD idx 0
      mean_buffer := []
      last_adjustment_time := now
      adjustment_count := 0 })

/-- `AutoExposureController.update_statistics` (lines 134-143): appends the
mean to the `deque(maxlen=100)`, evicting the oldest entry at capacity. -/
def AutoExposureController.updateStatistics (c : AutoExposureController)
    (mean : ℚ) : AutoExposureController :=
  { c with mean_buffer :=
      if c.mean_buffer.length < 100 then c.mean_buffer ++ [mean]
      else c.mean_buffer.tail ++ [mean] }

/-- `AutoExposureController.should_adjust_exposure` (lines 145-189);
`now` stands for `time.time()`; `np.mean` is sum divided by length. -/
def AutoExposureController.shouldAdjustExposure (c : AutoExposureController)
    (now : ℚ) : Bool × Option String :=
  if now - c.last_adjustment_time < c.evaluation_window then (false, none)
  else if c.mean_buffer.length < c.min_samples then (false, none)
  else
    let avg_mean := c.mean_buffer.sum / (c.mean_buffer.length : ℚ)
    if avg_mean < c.low_threshold then
      if c.current_preset_index < c.exposure_presets_ms.length - 1 then
        (true, some "increase")
      else (false, none)
    else if c.high_threshold < avg_mean then
      if 0 < c.current_preset_index then (true, some "decrease")
      else (false, none)
    else (false, none)

/-- `AutoExposureController.adjust_exposure` (lines 191-227): returns the
new exposure (or `none` when no adjustment is made) together with the
updated controller state. -/
def AutoExposureController.adjustExposure (c : AutoExposureController)
    (direction : String) (now : ℚ) : Option ℚ × AutoExposureController :=
  if direction = "increase" ∧
      c.current_preset_index < c.exposure_presets_ms.length - 1 then
    let idx := c.current_preset_index + 1
    let newExp := c.exposure_presets_ms.getD idx 0
    (some newExp,
     { c with current_preset_index := idx
              current_exposure_ms := newExp
              last_adjustment_time := now
              adjustment_count := c.adjustment_count + 1
              mean_buffer := [] })
  else if direction = "decrease" ∧ 0 < c.current_preset_index then
    let idx := c.current_preset_index - 1
    let newExp := c.exposure_presets_ms.getD idx 0
    (some newExp,
     { c with current_preset_index := idx
              current_exposure_ms := newExp
              last_adjustment_time := now
              adjustment_count := c.adjustment_count + 1
              mean_buffer := [] })
  else (none, c)

/-- The controller-updating part of
`HyperspectralROS2Node.set_exposure_callback` (lines 1646-1669): snaps
the requested value to the closest preset, rewrites index and exposure,
and clears the statistics buffer. -/
def AutoExposureController.setExposureOverride (c : AutoExposureController)
    (value : ℚ) : Option AutoExposureController :=
  (findClosestPresetIndex c.exposure_presets_ms value).map (fun idx =>
    { c with current_preset_index := idx
             current_exposure_ms := c.exposure_presets_ms.getD idx 0
             mean_buffer := [] })

/-- Data-model invariant of the controller (spec §3): the preset index is
in range and the current exposure equals the preset at that index. -/
def AutoExposureController.Inv (c : AutoExposureController) : Prop :=
  c.current_preset_index < c.exposure_presets_ms.length ∧
  c.current_exposure_ms =
    c.exposure_presets_ms.getD c.current_preset_index 0

/-! ## Capture-mode selection (hyperspec_node.py, lines 1239-1307)

`__init__` sets `use_threaded_capture = capture_frequency >= 50.0`;
`_init_timer_capture` creates one timer at period `1/capture_frequency`;
`_init_threaded_capture` creates a FrameQueue of size
`min(int(capture_frequency * 0.5), 50)` and a processing timer at
`capture_frequency * 1.1` Hz. -/

inductive CaptureMode where
  | cooperative (tick_period : ℚ)
  | threaded (queue_size : Nat) (processing_hz : ℚ)
deriving DecidableEq

def selectCaptureMode (capture_frequency : ℚ) : CaptureMode :=
  if 50 ≤ capture_frequency then
    CaptureMode.threaded
      (min (capture_frequency * (1 / 2)).floor.toNat 50)
      (capture_frequency * (11 / 10))
  else
    CaptureMode.cooperative (1 / capture_frequency)

/-! ## CameraAcquisitionThread (hyperspec_node.py, lines 1080-1197)

The acquisition loop is embedded as a step function over an explicit
state, driven by a list of per-iteration capture outcomes: a frame with
a timestamp, `None` from `get_line_image`, or an exception raised inside
the iteration.  `backoff_total` is a history variable accumulating the
`time.sleep(0.1)` backoff pauses of the `except` branch. -/

inductive CaptureResult (α : Type) where
  | frame (img : α) (ts : ℚ)
  | noData (ts : ℚ)
  | exc
deriving DecidableEq

structure AcqState (α : Type) where
  running : Bool
  frame_count : Nat
  error_count : Nat
  frame_queue : FrameQueue α
  next_capture_time : ℚ
  backoff_total : ℚ

/-- One iteration of `_acquisition_loop` (lines 1166-1197). -/
def acquisitionStep {α : Type} (period : ℚ) (s : AcqState α)
    (r : CaptureResult α) : AcqState α :=
  match r with
  | CaptureResult.frame img ts =>
      { s with frame_queue := (s.frame_queue.put img ts).2
               frame_count := s.frame_count + 1
               next_capture_time := s.next_capture_time + period }
  | CaptureResult.noData _ =>
      { s with error_count := s.error_count + 1
               next_capture_time := s.next_capture_time + period }
  | CaptureResult.exc =>
      { s with error_count := s.error_count + 1
               backoff_total := s.backoff_total + 1 / 10 }

/-- The `while self._running` loop (lines 1166-1197): re-checks the
running flag before every iteration and otherwise consumes the next
capture outcome. -/
def acquisitionLoop {α : Type} (period : ℚ) (s : AcqState α) :
    List (CaptureResult α) → AcqState α
  | [] => s
  | e :: es =>
      if s.running then acquisitionLoop period (acquisitionStep period s e) es
      else s

/-- `CameraAcquisitionThread.stop` (lines 1137-1152): clears the running
flag; a no-op when already stopped. -/
def AcqState.stop {α : Type} (s : AcqState α) : AcqState α :=
  if s.running then { s with running := false } else s

/-! ## Node parameter validation (hyperspec_node.py, lines 1309-1395)

The validation half of `declare_and_load_parameters`; `config_exists`
stands for `os.path.exists(config_path)`. -/

def validateParameters (camera_type : String) (config_path : String)
    (config_exists : Bool) (cap_hz : ℚ) (exposure_ms : ℚ)
    (auto_exp_low_threshold : ℚ) (auto_exp_high_threshold : ℚ)
    (processing_lvl : ℤ) : Except String Unit :=
  if camera_type ≠ "ximea" ∧ camera_type ≠ "lucid" then
    Except.error "invalid camera_type"
  else if config_path = "" then
    Except.error "config_file parameter is required"
  else if ¬ config_exists then
    Except.error "config file not found"
  else if cap_hz ≤ 0 then
    Except.error "cap_hz must be positive"
  else if exposure_ms ≤ 0 then
    Except.error "exposure_ms must be positive"
  else if auto_exp_high_threshold ≤ auto_exp_low_threshold then
    Except.error
      "auto_exposure_low_threshold must be less than auto_exposure_high_threshold"
  else if processing_lvl < 0 ∨ 4 < processing_lvl then
    Except.error "processing_lvl must be between 0 and 4"
  else Except.ok ()

/-! ## apply_calibration (hyperspec_node.py, lines 901-992)

Images are rows of rationals; `none` models an assertion failure.  The
`except` clause of the source returns the current value of the `image`
variable, which coincides with skipping the failing stage. -/

abbrev Image := List (List ℚ)

structure CalibrationData where
  flat_field_pic : Option Image
  rad_ref : Bool
  sfit_y : Option (List ℚ)

/-- Flat-field stage (lines 948-962): applied only when the shape
matches; `np.where(ff > 0, ff, 1)` then divide and rescale by the mean. -/
def applyFlatField (image : Image) (cd : CalibrationData) : Image :=
  match cd.flat_field_pic with
  | none => image
  | some ff =>
    if ff.map List.length = image.map List.length then
      let ffSafe := ff.map (List.map (fun v => if 0 < v then v else 1))
      let m := (ffSafe.map List.sum).sum / ((ffSafe.map List.length).sum : ℚ)
      (image.zip ffSafe).map (fun p =>
        (p.1.zip p.2).map (fun q => q.1 / q.2 * m))
    else image

/-- Radiance stage (lines 964-979): requires `rad_ref` and `sfit_y`
keys; the row-wise broadcast multiply succeeds only when every row has
the length of `sfit_y` (otherwise numpy raises and the `except` clause
returns the image unchanged). -/
def applyRadiance (image : Image) (cd : CalibrationData) : Image :=
  match cd.rad_ref, cd.sfit_y with
  | true, some sy =>
      if image.all (fun row => row.length = sy.length) then
        image.map (fun row => (row.zip sy).map (fun q => q.1 * q.2))
      else image
  | _, _ => image

/-- `apply_calibration` (lines 901-992).  The leading asserts become the
`none` cases; level 1 (dark subtraction) is a no-op in the source. -/
def applyCalibration (image : Image) (calibration_data : Option CalibrationData)
    (processing_lvl : ℤ) (exposure_ms : ℚ) : Option Image :=
  if ¬ (0 ≤ processing_lvl ∧ processing_lvl ≤ 4) then none
  else if ¬ 0 < exposure_ms then none
  else
    match calibration_data with
    | none => some image
    | some cd =>
      if processing_lvl = 0 then some image
      else
        let img2 := if 2 ≤ processing_lvl then applyFlatField image cd
                    else image
        let img3 := if 3 ≤ processing_lvl then applyRadiance img2 cd
                    else img2
        some img3

/-! ## Helper lemmas -/

lemma FrameQueue.putAll_nil {α : Type} (q : FrameQueue α) :
    q.putAll [] = q := rfl

lemma FrameQueue.putAll_cons {α : Type} (q : FrameQueue α)
    (it : α × ℚ) (items : List (α × ℚ)) :
    q.putAll (it :: items) = (q.put it.1 it.2).2.putAll items := rfl

lemma FrameQueue.put_hasRoom {α : Type} (c : Nat) (buf : List (α × ℚ))
    (dr : Nat) (f : α) (ts : ℚ) (h : buf.length < c) :
    FrameQueue.put ⟨c, buf, dr⟩ f ts = (true, ⟨c, buf ++ [(f, ts)], dr⟩) := by
  simp [FrameQueue.put, h]

lemma FrameQueue.put_whenFull {α : Type} (c : Nat) (buf : List (α × ℚ))
    (dr : Nat) (f : α) (ts : ℚ) (h : ¬ buf.length < c) :
    FrameQueue.put ⟨c, buf, dr⟩ f ts =
      (false, ⟨c, buf.tail ++ [(f, ts)], dr + 1⟩) := by
  simp [FrameQueue.put, h]

/-- Core induction: starting from a queue whose length is within capacity,
a sequence of puts keeps exactly the suffix of the total history that fits,
and counts every overflow in `dropped`. -/
lemma FrameQueue.putAll_spec {α : Type} (c : Nat) (hc : 0 < c) :
    ∀ (items : List (α × ℚ)) (buf : List (α × ℚ)) (dr : Nat),
      buf.length ≤ c →
      (FrameQueue.putAll ⟨c, buf, dr⟩ items).queue =
          (buf ++ items).drop (buf.length + items.length - c) ∧
      (FrameQueue.putAll ⟨c, buf, dr⟩ items).dropped =
          dr + (buf.length + items.length - c) ∧
      (FrameQueue.putAll ⟨c, buf, dr⟩ items).maxsize = c := by
  intro items
  induction items with
  | nil =>
      intro buf dr hlen
      have h0 : buf.length + ([] : List (α × ℚ)).length - c = 0 := by
        simp
        omega
      rw [FrameQueue.putAll_nil, h0]
      simp
  | cons it rest ih =>
      intro buf dr hlen
      rw [FrameQueue.putAll_cons]
      by_cases hroom : buf.length < c
      · rw [FrameQueue.put_hasRoom c buf dr it.1 it.2 hroom]
        obtain ⟨h1, h2, h3⟩ := ih (buf ++ [(it.1, it.2)]) dr (by simp; omega)
        refine ⟨?_, ?_, h3⟩
        · rw [h1]
          simp only [List.append_assoc, List.singleton_append,
            List.length_append, List.length_cons, List.length_singleton,
            List.length_nil]
          congr 1
          omega
        · rw [h2]
          simp only [List.length_append, List.length_cons,
            List.length_singleton, List.length_nil]
          congr 1
          omega
      · have hlenc : buf.length = c := by omega
        rw [FrameQueue.put_whenFull c buf dr it.1 it.2 hroom]
        have hne : buf ≠ [] := by
          intro h
          rw [h] at hlenc
          simp at hlenc
          omega
        obtain ⟨hd, tl, hbb⟩ := List.exists_cons_of_ne_nil hne
        subst hbb
        have htllen : tl.length = c - 1 := by
          simp at hlenc
          omega
        obtain ⟨h1, h2, h3⟩ := ih ((hd :: tl).tail ++ [(it.1, it.2)]) (dr + 1)
          (by simp [htllen]; omega)
        refine ⟨?_, ?_, h3⟩
        · rw [h1]
          simp only [List.tail_cons, List.append_assoc, List.singleton_append,
            List.length_append, List.length_cons, List.length_singleton,
            List.length_nil, List.cons_append, List.nil_append]
          have hidx : tl.length + 1 + (rest.length + 1) - c = rest.length + 1 := by
            omega
          have hidx2 : tl.length + (0 + 1) + rest.length - c = rest.length := by
            omega
          rw [hidx, hidx2, List.drop_succ_cons]
        · rw [h2]
          simp only [List.tail_cons, List.length_append, List.length_cons,
            List.length_singleton, List.length_nil]
          omega

lemma pyMin_mem : ∀ {l : List ℚ} {m : ℚ}, pyMin l = some m → m ∈ l := by
  intro l
  induction l with
  | nil => intro m h; simp [pyMin] at h
  | cons x xs ih =>
      intro m h
      simp only [pyMin] at h
      cases hxs : pyMin xs with
      | none =>
          rw [hxs] at h
          simp at h
          simp [h]
      | some m' =>
          rw [hxs] at h
          simp at h
          rcases min_choice x m' with hc | hc


          · rw [hc] at h
            simp [← h]
          · rw [hc] at h
            right
            rw [← h]
            exact ih hxs

lemma pyMin_le : ∀ {l : List ℚ} {m : ℚ}, pyMin l = some m →
    ∀ a ∈ l, m ≤ a := by
  intro l
  induction l with
  | nil => intro m h; simp [pyMin] at h
  | cons x xs ih =>
      intro m h a ha
      simp only [pyMin] at h
      cases hxs : pyMin xs with
      | none =>
          rw [hxs] at h
          simp at h
          cases xs with
          | nil =>
              simp at ha
              simp [ha, ← h]
          | cons y ys => simp [pyMin] at hxs
      | some m' =>
          rw [hxs] at h
          simp at h
          rcases List.mem_cons.mp ha with heq | hmem
          · rw [heq, ← h]
            exact min_le_left x m'
          · calc m ≤ m' := by rw [← h]; exact min_le_right x m'
              _ ≤ a := ih hxs a hmem

lemma pyMin_isSome {l : List ℚ} (h : l ≠ []) : ∃ m, pyMin l = some m := by
  cases l with
  | nil => exact absurd rfl h
  | cons x xs => exact ⟨_, rfl⟩

lemma pyIndex_lt_length {a : ℚ} : ∀ {l : List ℚ}, a ∈ l →
    pyIndex a l < l.length := by
  intro l
  induction l with
  | nil => intro h; simp at h
  | cons x xs ih =>
      intro h
      by_cases hx : x = a
      · simp [pyIndex, hx]
      · rcases List.mem_cons.mp h with rfl | hmem
        · exact absurd rfl hx
        · simp only [pyIndex, hx, if_false, List.length_cons]
          exact Nat.succ_lt_succ (ih hmem)

lemma getD_pyIndex {a : ℚ} : ∀ {l : List ℚ}, a ∈ l →
    l.getD (pyIndex a l) 0 = a := by
  intro l
  induction l with
  | nil => intro h; simp at h
  | cons x xs ih =>
      intro h
      by_cases hx : x = a
      · simp [pyIndex, hx]
      · rcases List.mem_cons.mp h with rfl | hmem
        · exact absurd rfl hx
        · simp only [pyIndex, hx, if_false]
          simpa using ih hmem

lemma pyIndex_first {a : ℚ} : ∀ {l : List ℚ} {j : Nat}, j < pyIndex a l →
    l.getD j 0 ≠ a := by
  intro l
  induction l with
  | nil => intro j h; simp [pyIndex] at h
  | cons x xs ih =>
      intro j h
      by_cases hx : x = a
      · simp [pyIndex, hx] at h
      · simp only [pyIndex, hx, if_false] at h
        cases j with
        | zero => simpa using hx
        | succ j' =>
            simp only [List.getD_cons_succ]
            exact ih (Nat.lt_of_succ_lt_succ h)

lemma getD_mem : ∀ {l : List ℚ} {j : Nat}, j < l.length → l.getD j 0 ∈ l := by
  intro l
  induction l with
  | nil => intro j h; simp at h
  | cons x xs ih =>
      intro j h
      cases j with
      | zero => simp
      | succ j' =>
          simp only [List.getD_cons_succ]
          exact List.mem_cons_of_mem _ (ih (Nat.lt_of_succ_lt_succ h))

lemma getD_map_abs (presets : List ℚ) (x : ℚ) :
    ∀ {j : Nat}, j < presets.length →
    (presets.map (fun p => |p - x|)).getD j 0 = |presets.getD j 0 - x| := by
  induction presets with
  | nil => intro j h; simp at h
  | cons p ps ih =>
      intro j h
      cases j with
      | zero => simp
      | succ j' =>
          simp only [List.map_cons, List.getD_cons_succ]
          exact ih (by simpa using Nat.lt_of_succ_lt_succ h)

/-- `_find_closest_preset_index` returns the first index achieving the
minimum absolute difference. -/
lemma findClosestPresetIndex_spec (presets : List ℚ) (x : ℚ)
    (hne : presets ≠ []) :
    ∃ i, findClosestPresetIndex presets x = some i ∧
      i < presets.length ∧
      (∀ j, j < presets.length →
        |presets.getD i 0 - x| ≤ |presets.getD j 0 - x|) ∧
      (∀ j, j < i → |presets.getD i 0 - x| < |presets.getD j 0 - x|) := by
  have hdne : presets.map (fun p => |p - x|) ≠ [] := by
    simpa using hne
  obtain ⟨m, hm⟩ := pyMin_isSome hdne
  set diffs := presets.map (fun p => |p - x|) with hdiffs
  refine ⟨pyIndex m diffs, ?_, ?_, ?_, ?_⟩
  · simp [findClosestPresetIndex, ← hdiffs, hm]
  · have := pyIndex_lt_length (pyMin_mem hm)
    simpa [hdiffs] using this
  · intro j hj
    have hi : diffs.getD (pyIndex m diffs) 0 = m := getD_pyIndex (pyMin_mem hm)
    have hilt : pyIndex m diffs < presets.length := by
      have := pyIndex_lt_length (pyMin_mem hm)
      simpa [hdiffs] using this
    have h1 : |presets.getD (pyIndex m diffs) 0 - x| = m := by
      rw [← getD_map_abs presets x hilt]
      exact hi
    have h2 : diffs.getD j 0 = |presets.getD j 0 - x| := getD_map_abs presets x hj
    rw [h1, ← h2]
    apply pyMin_le hm
    have : j < diffs.length := by simpa [hdiffs] using hj
    exact getD_mem this
  · intro j hj
    have hilt : pyIndex m diffs < presets.length := by
      have := pyIndex_lt_length (pyMin_mem hm)
      simpa [hdiffs] using this
    have hjlt : j < presets.length := lt_trans hj hilt
    have h1 : |presets.getD (pyIndex m diffs) 0 - x| = m := by
      rw [← getD_map_abs presets x hilt]
      exact getD_pyIndex (pyMin_mem hm)
    have h2 : diffs.getD j 0 = |presets.getD j 0 - x| := getD_map_abs presets x hjlt
    have hne2 : diffs.getD j 0 ≠ m := pyIndex_first hj
    have hge : m ≤ diffs.getD j 0 := by
      apply pyMin_le hm
      have : j < diffs.length := by simpa [hdiffs] using hjlt
      exact getD_mem this
    rw [h1, ← h2]
    exact lt_of_le_of_ne hge (Ne.symm hne2)

lemma findClosestPresetIndex_some_lt {presets : List ℚ} {x : ℚ} {i : Nat}
    (h : findClosestPresetIndex presets x = some i) : i < presets.length := by
  simp only [findClosestPresetIndex, Option.map_eq_some'] at h
  obtain ⟨m, hm, hi⟩ := h
  have := pyIndex_lt_length (pyMin_mem hm)
  rw [hi] at this
  simpa using this

/-! ## Claim theorems -/

/-- C1: For every FrameQueue capacity c > 0 and every sequence of `put`
calls with valid frames and positive timestamps executed sequentially from
an empty queue: `put` returns true exactly when the queue held fewer than c
entries before the call; when the queue is full, `put` removes the oldest
entry, increments the dropped counter, inserts the new entry, and returns
false; after n puts the queue holds the last min(n, c) frames in their
original relative order, its size never exceeds c, and the dropped count
equals max(n - c, 0). -/
theorem frameQueue_put_drop_oldest {α : Type} (c : Nat) (hc : 0 < c)
    (items : List (α × ℚ)) (hts : ∀ it ∈ items, (0 : ℚ) < it.2) :
    ((FrameQueue.empty α c).putAll items).queue =
        items.drop (items.length - c) ∧
    ((FrameQueue.empty α c).putAll items).queue.length = min items.length c ∧
    ((FrameQueue.empty α c).putAll items).dropped = items.length - c ∧
    (∀ k, ((FrameQueue.empty α c).putAll (items.take k)).queue.length ≤ c) ∧
    (∀ (q : FrameQueue α) (f : α) (ts : ℚ), q.maxsize = c →
      ((q.put f ts).1 = true ↔ q.queue.length < c) ∧
      (c ≤ q.queue.length →
        (q.put f ts).1 = false ∧
        (q.put f ts).2.queue = q.queue.tail ++ [(f, ts)] ∧
        (q.put f ts).2.dropped = q.dropped + 1)) := by
  obtain ⟨h1, h2, h3⟩ :=
    FrameQueue.putAll_spec c hc items [] 0 (by simp)
  have hempty : FrameQueue.empty α c = ⟨c, [], 0⟩ := rfl
  refine ⟨?_, ?_, ?_, ?_, ?_⟩
  · rw [hempty, h1]
    simp
  · rw [hempty, h1]
    simp only [List.nil_append, List.length_nil, Nat.zero_add, List.length_drop]
    omega
  · rw [hempty, h2]
    simp
  · intro k
    obtain ⟨g1, _, _⟩ :=
      FrameQueue.putAll_spec c hc (items.take k) [] 0 (by simp)
    rw [hempty, g1]
    simp only [List.nil_append, List.length_nil, Nat.zero_add, List.length_drop]
    omega
  · intro q f ts hq
    obtain ⟨ms, buf, dr⟩ := q
    simp only at hq
    symm at hq
    subst hq
    by_cases hroom : buf.length < c
    · rw [FrameQueue.put_hasRoom c buf dr f ts hroom]
      constructor
      · simpa using hroom
      · intro hfull
        exact absurd hfull (not_le.mpr hroom)
    · rw [FrameQueue.put_whenFull c buf dr f ts hroom]
      constructor
      · simpa using hroom
      · intro _
        exact ⟨rfl, rfl, rfl⟩

/-- Witness for C1 at capacity 2 and three puts: the queue keeps the last
two frames. -/
theorem frameQueue_put_drop_oldest_witness :
    ((FrameQueue.empty Nat 2).putAll [(1, 1), (2, 1), (3, 1)]).queue =
      [(2, (1 : ℚ)), (3, 1)] := by
  have h := frameQueue_put_drop_oldest (α := Nat) 2 (by norm_num)
    [(1, 1), (2, 1), (3, 1)]
    (by intro it hit; fin_cases hit <;> norm_num)
  rw [h.1]
  norm_num

/-- C7: For every preset list and initial exposure value, construction
snaps the controller's current exposure to the stored preset with minimum
absolute difference to the requested initial value, breaking ties toward
the lower index; in particular, for presets [5, 10, 20] and initial
request 12, the snapped initial exposure is 10. -/
theorem exposure_snap_closest (presets : List ℚ)
    (initial low high window t : ℚ) (ms : Nat) (hne : presets ≠ []) :
    (∃ c, AutoExposureController.init presets initial low high window ms t =
        some c ∧
      c.current_preset_index < c.exposure_presets_ms.length ∧
      c.current_exposure_ms =
        c.exposure_presets_ms.getD c.current_preset_index 0 ∧
      (∀ j, j < c.exposure_presets_ms.length →
        |c.current_exposure_ms - initial| ≤
          |c.exposure_presets_ms.getD j 0 - initial|) ∧
      (∀ j, j < c.current_preset_index →
        |c.current_exposure_ms - initial| <
          |c.exposure_presets_ms.getD j 0 - initial|)) ∧
    (AutoExposureController.init [5, 10, 20] 12 low high window ms t).map
      (fun c => c.current_exposure_ms) = some 10 := by
  constructor
  · have hsne : presets.insertionSort (· ≤ ·) ≠ [] := by
      intro h
      have := List.perm_insertionSort (· ≤ ·) presets
      rw [h] at this
      exact hne (List.Perm.nil_eq this).symm
    obtain ⟨i, hfc, hlt, hle, hstrict⟩ :=
      findClosestPresetIndex_spec (presets.insertionSort (· ≤ ·)) initial hsne
    refine ⟨{ exposure_presets_ms := presets.insertionSort (· ≤ ·)
              low_threshold := low
              high_threshold := high
              evaluation_window := window
              min_samples := ms
              current_preset_index := i
              current_exposure_ms := (presets.insertionSort (· ≤ ·)).getD i 0
              mean_buffer := []
              last_adjustment_time := t
              adjustment_count := 0 }, ?_, ?_, rfl, ?_, ?_⟩
    · simp [AutoExposureController.init, hfc]
    · simpa using hlt
    · intro j hj
      simpa using hle j (by simpa using hj)
    · intro j hj
      simpa using hstrict j hj
  · norm_num [AutoExposureController.init, findClosestPresetIndex, pyMin,
      pyIndex, List.insertionSort, List.orderedInsert]

/-- Witness for C7 with presets [5, 10, 20] and request 12. -/
theorem exposure_snap_closest_witness :
    (AutoExposureController.init [5, 10, 20] 12 500 3000 5 10 0).map
      (fun c => c.current_exposure_ms) = some 10 :=
  (exposure_snap_closest [5, 10, 20] 12 500 3000 5 0 10
    (by simp)).2

/-- C4: After construction and after every operation on the exposure
controller (construction-time snapping, adjust_exposure in either
direction, and the external set-exposure override), the current preset
index i satisfies 0 ≤ i < number of presets and the current exposure
value equals presets[i]. -/
theorem exposure_controller_invariant :
    (∀ (presets : List ℚ) (x low high w t : ℚ) (ms : Nat)
        (c : AutoExposureController),
      AutoExposureController.init presets x low high w ms t = some c →
      c.Inv) ∧
    (∀ (c : AutoExposureController) (d : String) (now : ℚ),
      c.Inv → ((c.adjustExposure d now).2).Inv) ∧
    (∀ (c : AutoExposureController) (v : ℚ) (c' : AutoExposureController),
      c.setExposureOverride v = some c' → c'.Inv) := by
  refine ⟨?_, ?_, ?_⟩
  · intro presets x low high w t ms c hinit
    simp only [AutoExposureController.init, Option.map_eq_some'] at hinit
    obtain ⟨idx, hidx, hc⟩ := hinit
    have hlt := findClosestPresetIndex_some_lt hidx
    rw [← hc]
    refine ⟨hlt, ?_⟩
    rfl
  · intro c d now hinv
    obtain ⟨hlt, hexp⟩ := hinv
    unfold AutoExposureController.adjustExposure
    split_ifs with h1 h2
    · exact ⟨by simp; omega, rfl⟩
    · exact ⟨by simp; omega, rfl⟩
    · exact ⟨hlt, hexp⟩
  · intro c v c' hset
    simp only [AutoExposureController.setExposureOverride,
      Option.map_eq_some'] at hset
    obtain ⟨idx, hidx, hc⟩ := hset
    have hlt := findClosestPresetIndex_some_lt hidx
    rw [← hc]
    refine ⟨hlt, ?_⟩
    rfl

/-- C2: For every controller state (with well-formed thresholds and a
positive minimum sample count), should_adjust_exposure returns
(false, None) whenever less than the evaluation window has elapsed since
the last adjustment or fewer than min_samples means are buffered;
otherwise, letting avg be the arithmetic mean of the buffered means, it
returns (true, increase) iff avg < low_threshold and the current preset
index is strictly below the highest index, (true, decrease) iff
avg > high_threshold and the current preset index is strictly above 0,
and (false, None) in every other case, including when the triggering
threshold is crossed but the index is already at the corresponding
boundary. -/
theorem should_adjust_decision (c : AutoExposureController) (now : ℚ)
    (hth : c.low_threshold < c.high_threshold) (hmin : 0 < c.min_samples) :
    ((now - c.last_adjustment_time < c.evaluation_window ∨
        c.mean_buffer.length < c.min_samples) →
      c.shouldAdjustExposure now = (false, none)) ∧
    (c.evaluation_window ≤ now - c.last_adjustment_time →
      c.min_samples ≤ c.mean_buffer.length →
      ((c.shouldAdjustExposure now = (true, some "increase")) ↔
        (c.mean_buffer.sum / (c.mean_buffer.length : ℚ) < c.low_threshold ∧
          c.current_preset_index < c.exposure_presets_ms.length - 1)) ∧
      ((c.shouldAdjustExposure now = (true, some "decrease")) ↔
        (c.high_threshold < c.mean_buffer.sum / (c.mean_buffer.length : ℚ) ∧
          0 < c.current_preset_index)) ∧
      ((¬ (c.mean_buffer.sum / (c.mean_buffer.length : ℚ) < c.low_threshold ∧
            c.current_preset_index < c.exposure_presets_ms.length - 1)) →
        (¬ (c.high_threshold < c.mean_buffer.sum / (c.mean_buffer.length : ℚ) ∧
            0 < c.current_preset_index)) →
        c.shouldAdjustExposure now = (false, none))) := by
  constructor
  · intro h
    by_cases h1 : now - c.last_adjustment_time < c.evaluation_window
    · simp [AutoExposureController.shouldAdjustExposure, h1]
    · have h2 : c.mean_buffer.length < c.min_samples := by tauto
      simp [AutoExposureController.shouldAdjustExposure, h1, h2]
  · intro h1 h2
    have h1' : ¬ now - c.last_adjustment_time < c.evaluation_window :=
      not_lt.mpr h1
    have h2' : ¬ c.mean_buffer.length < c.min_samples := not_lt.mpr h2
    refine ⟨?_, ?_, ?_⟩
    · by_cases ha : c.mean_buffer.sum / (c.mean_buffer.length : ℚ) <
          c.low_threshold
      · by_cases hb : c.current_preset_index <
            c.exposure_presets_ms.length - 1
        · simp [AutoExposureController.shouldAdjustExposure, h1', h2', ha, hb]
        · simp [AutoExposureController.shouldAdjustExposure, h1', h2', ha, hb]
      · have hno : ¬ ((false, (none : Option String)) =
            ((true : Bool), some "increase")) := by decide
        by_cases hc2 : c.high_threshold <
            c.mean_buffer.sum / (c.mean_buffer.length : ℚ)
        · by_cases hd : 0 < c.current_preset_index
          · simp [AutoExposureController.shouldAdjustExposure, h1', h2', ha,
              hc2, hd]
          · simp [AutoExposureController.shouldAdjustExposure, h1', h2', ha,
              hc2, hd]
        · simp [AutoExposureController.shouldAdjustExposure, h1', h2', ha, hc2]
    · by_cases ha : c.mean_buffer.sum / (c.mean_buffer.length : ℚ) <
          c.low_threshold
      · have hnb : ¬ c.high_threshold <
            c.mean_buffer.sum / (c.mean_buffer.length : ℚ) := by
          intro hb
          exact absurd (lt_trans hb ha) (lt_asymm hth)
        by_cases hb : c.current_preset_index <
            c.exposure_presets_ms.length - 1
        · simp only [AutoExposureController.shouldAdjustExposure, h1', h2',
            ha, hb, if_true, if_false]
          constructor
          · intro h
            exact absurd h (by decide)
          · intro h
            exact absurd h.1 hnb
        · simp [AutoExposureController.shouldAdjustExposure, h1', h2', ha, hb,
            hnb]
      · by_cases hc2 : c.high_threshold <
            c.mean_buffer.sum / (c.mean_buffer.length : ℚ)
        · by_cases hd : 0 < c.current_preset_index
          · simp [AutoExposureController.shouldAdjustExposure, h1', h2', ha,
              hc2, hd]
          · simp [AutoExposureController.shouldAdjustExposure, h1', h2', ha,
              hc2, hd]
        · simp [AutoExposureController.shouldAdjustExposure, h1', h2', ha, hc2]
    · intro hni hnd
      by_cases ha : c.mean_buffer.sum / (c.mean_buffer.length : ℚ) <
          c.low_threshold
      · have hb : ¬ c.current_preset_index <
            c.exposure_presets_ms.length - 1 := by tauto
        simp [AutoExposureController.shouldAdjustExposure, h1', h2', ha, hb]
      · by_cases hc2 : c.high_threshold <
            c.mean_buffer.sum / (c.mean_buffer.length : ℚ)
        · have hd : ¬ 0 < c.current_preset_index := by tauto
          simp [AutoExposureController.shouldAdjustExposure, h1', h2', ha,
            hc2, hd]
        · simp [AutoExposureController.shouldAdjustExposure, h1', h2', ha, hc2]

/-- Witness for C2: a controller at the topmost preset with a low average
yields (false, none) even though the window and sample conditions hold. -/
theorem should_adjust_decision_witness :
    (AutoExposureController.shouldAdjustExposure
      { exposure_presets_ms := [5, 10, 20]
        low_threshold := 500
        high_threshold := 3000
        evaluation_window := 5
        min_samples := 2
        current_preset_index := 2
        current_exposure_ms := 20
        mean_buffer := [100, 100]
        last_adjustment_time := 0
        adjustment_count := 0 } 10) = (false, none) := by
  have h := should_adjust_decision
    { exposure_presets_ms := [5, 10, 20]
      low_threshold := 500
      high_threshold := 3000
      evaluation_window := 5
      min_samples := 2
      current_preset_index := 2
      current_exposure_ms := 20
      mean_buffer := [100, 100]
      last_adjustment_time := 0
      adjustment_count := 0 } 10 (by norm_num) (by norm_num)
  exact (h.2 (by norm_num) (by norm_num)).2.2 (by norm_num) (by norm_num)

/-- C3: For every controller state and direction string d: if d is
'increase' and the current index is not the highest, or d is 'decrease'
and the current index is not 0, then adjust_exposure moves the index
exactly one step in that direction, sets the current exposure to
presets[new index], resets the last-adjustment timestamp, clears the
rolling mean buffer, increments the adjustment counter, and returns the
new exposure; otherwise (boundary already reached, or any other
direction string) it returns None and leaves every component of the
controller state unchanged. -/
theorem adjust_exposure_step (c : AutoExposureController) (d : String)
    (now : ℚ)
    (hinv : c.current_preset_index < c.exposure_presets_ms.length) :
    (d = "increase" →
      c.current_preset_index < c.exposure_presets_ms.length - 1 →
      (c.adjustExposure d now).1 =
          some (c.exposure_presets_ms.getD (c.current_preset_index + 1) 0) ∧
      ((c.adjustExposure d now).2).current_preset_index =
          c.current_preset_index + 1 ∧
      ((c.adjustExposure d now).2).current_exposure_ms =
          c.exposure_presets_ms.getD (c.current_preset_index + 1) 0 ∧
      ((c.adjustExposure d now).2).last_adjustment_time = now ∧
      ((c.adjustExposure d now).2).mean_buffer = [] ∧
      ((c.adjustExposure d now).2).adjustment_count =
          c.adjustment_count + 1 ∧
      ((c.adjustExposure d now).2).exposure_presets_ms =
          c.exposure_presets_ms) ∧
    (d = "decrease" → 0 < c.current_preset_index →
      (c.adjustExposure d now).1 =
          some (c.exposure_presets_ms.getD (c.current_preset_index - 1) 0) ∧
      ((c.adjustExposure d now).2).current_preset_index =
          c.current_preset_index - 1 ∧
      ((c.adjustExposure d now).2).current_exposure_ms =
          c.exposure_presets_ms.getD (c.current_preset_index - 1) 0 ∧
      ((c.adjustExposure d now).2).last_adjustment_time = now ∧
      ((c.adjustExposure d now).2).mean_buffer = [] ∧
      ((c.adjustExposure d now).2).adjustment_count =
          c.adjustment_count + 1 ∧
      ((c.adjustExposure d now).2).exposure_presets_ms =
          c.exposure_presets_ms) ∧
    (¬ ((d = "increase" ∧
          c.current_preset_index < c.exposure_presets_ms.length - 1) ∨
        (d = "decrease" ∧ 0 < c.current_preset_index)) →
      c.adjustExposure d now = (none, c)) := by
  refine ⟨?_, ?_, ?_⟩
  · intro hd hlt
    have hcond : d = "increase" ∧
        c.current_preset_index < c.exposure_presets_ms.length - 1 :=
      ⟨hd, hlt⟩
    simp [AutoExposureController.adjustExposure, hcond]
  · intro hd hlt
    have hne : ¬ (d = "increase" ∧
        c.current_preset_index < c.exposure_presets_ms.length - 1) := by
      intro hcon
      rw [hd] at hcon
      exact absurd hcon.1 (by decide)
    have hcond : d = "decrease" ∧ 0 < c.current_preset_index := ⟨hd, hlt⟩
    simp [AutoExposureController.adjustExposure, hne, hcond]
  · intro hno
    have hn1 : ¬ (d = "increase" ∧
        c.current_preset_index < c.exposure_presets_ms.length - 1) := by
      tauto
    have hn2 : ¬ (d = "decrease" ∧ 0 < c.current_preset_index) := by tauto
    simp [AutoExposureController.adjustExposure, hn1, hn2]

/-- Witness for C3: from index 1 of three presets, 'increase' moves to
index 2 with exposure 20. -/
theorem adjust_exposure_step_witness :
    (AutoExposureController.adjustExposure
      { exposure_presets_ms := [5, 10, 20]
        low_threshold := 500
        high_threshold := 3000
        evaluation_window := 5
        min_samples := 10
        current_preset_index := 1
        current_exposure_ms := 10
        mean_buffer := [100]
        last_adjustment_time := 0
        adjustment_count := 0 } "increase" 7).1 = some 20 := by
  have h := adjust_exposure_step
    { exposure_presets_ms := [5, 10, 20]
      low_threshold := 500
      high_threshold := 3000
      evaluation_window := 5
      min_samples := 10
      current_preset_index := 1
      current_exposure_ms := 10
      mean_buffer := [100]
      last_adjustment_time := 0
      adjustment_count := 0 } "increase" 7 (by norm_num)
  have h2 := (h.1 rfl (by norm_num)).1
  simpa using h2

/-- C5: At startup, for every requested capture rate r > 0: if r < 50.0
the node selects timer-based (Cooperative) capture with a single periodic
tick at period 1/r; if r >= 50.0 it selects Threaded capture with a
FrameBuffer of capacity min(int(r * 0.5), 50) and a processing tick at
frequency 1.1 × r; in particular requested rate 10.0 selects Cooperative,
and requested rate 60.0 selects Threaded with a processing tick rate of
66.0. -/
theorem capture_mode_selection (r : ℚ) (hr : 0 < r) :
    (r < 50 → selectCaptureMode r = CaptureMode.cooperative (1 / r)) ∧
    (50 ≤ r → selectCaptureMode r =
      CaptureMode.threaded (min (r * (1 / 2)).floor.toNat 50)
        (r * (11 / 10))) ∧
    selectCaptureMode 10 = CaptureMode.cooperative (1 / 10) ∧
    selectCaptureMode 60 = CaptureMode.threaded 30 66 := by
  refine ⟨?_, ?_, ?_, ?_⟩
  · intro h
    simp [selectCaptureMode, not_le.mpr h]
  · intro h
    simp [selectCaptureMode, h]
  · norm_num [selectCaptureMode]
  · norm_num [selectCaptureMode]
    rfl

/-- Witness for C5 at the two rates named by the spec. -/
theorem capture_mode_selection_witness :
    selectCaptureMode 10 = CaptureMode.cooperative (1 / 10) ∧
    selectCaptureMode 60 = CaptureMode.threaded 30 66 := by
  have h := capture_mode_selection 60 (by norm_num)
  exact ⟨h.2.2.1, h.2.2.2⟩

/-- C6: The acquisition loop of CameraAcquisitionThread exits only when
the running flag has been cleared by an explicit stop(): no iteration
changes the running flag, so while it is set the loop consumes every
capture outcome (it never terminates by itself), and once cleared by
stop() the loop stops; in every iteration a failed capture
(get_line_image returning None) increments the error counter without
pushing a frame, and an exception raised inside the iteration is caught,
counted, and followed by the fixed 0.1 s backoff pause, leaving the
queue and running flag untouched. -/
theorem acquisition_loop_exits_only_on_stop {α : Type} (period : ℚ)
    (s : AcqState α) (events : List (CaptureResult α)) :
    (∀ (s' : AcqState α) (e : CaptureResult α),
      (acquisitionStep period s' e).running = s'.running) ∧
    (s.running = true →
      acquisitionLoop period s events =
        events.foldl (fun t e => acquisitionStep period t e) s) ∧
    (s.running = false → acquisitionLoop period s events = s) ∧
    (acquisitionLoop period s.stop events = s.stop) ∧
    (∀ (s' : AcqState α) (ts : ℚ),
      (acquisitionStep period s' (CaptureResult.noData ts)).error_count =
          s'.error_count + 1 ∧
      (acquisitionStep period s' (CaptureResult.noData ts)).frame_queue =
          s'.frame_queue ∧
      (acquisitionStep period s' (CaptureResult.noData ts)).frame_count =
          s'.frame_count) ∧
    (∀ (s' : AcqState α),
      (acquisitionStep period s' CaptureResult.exc).error_count =
          s'.error_count + 1 ∧
      (acquisitionStep period s' CaptureResult.exc).frame_queue =
          s'.frame_queue ∧
      (acquisitionStep period s' CaptureResult.exc).backoff_total =
          s'.backoff_total + 1 / 10 ∧
      (acquisitionStep period s' CaptureResult.exc).running = s'.running) := by
  have hrun : ∀ (s' : AcqState α) (e : CaptureResult α),
      (acquisitionStep period s' e).running = s'.running := by
    intro s' e
    cases e <;> rfl
  have hfold : ∀ (evs : List (CaptureResult α)) (t : AcqState α),
      t.running = true →
      acquisitionLoop period t evs =
        evs.foldl (fun u e => acquisitionStep period u e) t := by
    intro evs
    induction evs with
    | nil => intro t _; rfl
    | cons e es ih =>
        intro t ht
        simp only [acquisitionLoop, ht, if_true, List.foldl_cons]
        exact ih _ (by rw [hrun]; exact ht)
  have hstopped : ∀ (evs : List (CaptureResult α)) (t : AcqState α),
      t.running = false → acquisitionLoop period t evs = t := by
    intro evs t ht
    cases evs with
    | nil => rfl
    | cons e es => simp [acquisitionLoop, ht]
  refine ⟨hrun, hfold events s, hstopped events s, ?_, ?_, ?_⟩
  · by_cases hs : s.running
    · have : s.stop.running = false := by
        simp [AcqState.stop, hs]
      exact hstopped events s.stop this
    · have hs' : s.running = false := by simpa using hs
      have : s.stop = s := by simp [AcqState.stop, hs']
      rw [this]
      exact hstopped events s hs'
  · intro s' ts
    exact ⟨rfl, rfl, rfl⟩
  · intro s'
    exact ⟨rfl, rfl, rfl, rfl⟩

/-- C8 counterexample: the controller constructor itself raises no error
for low_signal_threshold = 3000 ≥ 500 = high_signal_threshold — a
controller with malformed thresholds is created. -/
theorem controller_accepts_malformed_thresholds :
    (AutoExposureController.init [5, 10] 10 3000 500 5 10 0).map
      (fun c => (c.low_threshold, c.high_threshold)) =
        some ((3000 : ℚ), (500 : ℚ)) ∧
    (500 : ℚ) ≤ 3000 := by
  constructor
  · norm_num [AutoExposureController.init, findClosestPresetIndex, pyMin,
      pyIndex, List.insertionSort, List.orderedInsert]
  · norm_num

/-- C8 (amended): malformed thresholds (low ≥ high) are rejected by the
node's parameter validation, which runs before any controller is
constructed, so no controller with malformed thresholds is created along
the node startup path; the controller constructor itself performs no
threshold validation. -/
theorem validate_parameters_rejects_malformed_thresholds
    (camera_type config_path : String) (config_exists : Bool)
    (cap_hz exposure_ms lo hi : ℚ) (lvl : ℤ) (h : hi ≤ lo) :
    ∃ msg, validateParameters camera_type config_path config_exists cap_hz
      exposure_ms lo hi lvl = Except.error msg := by
  unfold validateParameters
  split_ifs <;> exact ⟨_, rfl⟩

/-- Witness for the amended C8: thresholds 3000 ≥ 500 are rejected even
when every other parameter is valid. -/
theorem validate_parameters_rejects_malformed_thresholds_witness :
    ∃ msg, validateParameters "ximea" "cfg.json" true 10 10 3000 500 0 =
      Except.error msg :=
  validate_parameters_rejects_malformed_thresholds "ximea" "cfg.json" true
    10 10 3000 500 0 (by norm_num)

/-- C9 counterexample: for the input [10, 10] the stored preset sequence
is [10, 10], which is not duplicate-free. -/
theorem presets_not_duplicate_free :
    (AutoExposureController.init [10, 10] 10 500 3000 5 10 0).map
      (fun c => c.exposure_presets_ms) = some [10, 10] ∧
    ¬ ([(10 : ℚ), 10] : List ℚ).Nodup := by
  constructor
  · norm_num [AutoExposureController.init, findClosestPresetIndex, pyMin,
      pyIndex, List.insertionSort, List.orderedInsert]
  · simp

/-- C9 (amended): the preset sequence stored at construction is sorted in
non-decreasing order and is a permutation of the input (so it is
duplicate-free only when the input is); no subsequent controller
operation modifies it. -/
theorem presets_sorted_and_immutable (input : List ℚ)
    (x lo hi w t : ℚ) (ms : Nat) (c : AutoExposureController)
    (h : AutoExposureController.init input x lo hi w ms t = some c) :
    c.exposure_presets_ms.Sorted (· ≤ ·) ∧
    c.exposure_presets_ms.Perm input ∧
    (∀ d now, ((c.adjustExposure d now).2).exposure_presets_ms =
        c.exposure_presets_ms) ∧
    (∀ m, (c.updateStatistics m).exposure_presets_ms =
        c.exposure_presets_ms) ∧
    (∀ v c', c.setExposureOverride v = some c' →
        c'.exposure_presets_ms = c.exposure_presets_ms) := by
  simp only [AutoExposureController.init, Option.map_eq_some'] at h
  obtain ⟨idx, hidx, hc⟩ := h
  have hpre : c.exposure_presets_ms = input.insertionSort (· ≤ ·) := by
    rw [← hc]
  refine ⟨?_, ?_, ?_, ?_, ?_⟩
  · rw [hpre]
    exact List.sorted_insertionSort (· ≤ ·) input
  · rw [hpre]
    exact List.perm_insertionSort (· ≤ ·) input
  · intro d now
    unfold AutoExposureController.adjustExposure
    split_ifs <;> rfl
  · intro m
    rfl
  · intro v c' hset
    simp only [AutoExposureController.setExposureOverride,
      Option.map_eq_some'] at hset
    obtain ⟨i, _, hc'⟩ := hset
    rw [← hc']

/-- Witness for the amended C9: constructing from [20, 5, 10] stores the
sorted sequence [5, 10, 20]. -/
theorem presets_sorted_and_immutable_witness :
    ((⟨[5, 10, 20], 500, 3000, 5, 3, 1, 10, [], 0, 0⟩ :
        AutoExposureController).exposure_presets_ms).Sorted (· ≤ ·) := by
  have h := presets_sorted_and_immutable [20, 5, 10] 10 500 3000 5 0 3
    ⟨[5, 10, 20], 500, 3000, 5, 3, 1, 10, [], 0, 0⟩
    (by norm_num [AutoExposureController.init, findClosestPresetIndex,
      pyMin, pyIndex, List.insertionSort, List.orderedInsert])
  exact h.1

/-- C10: For every 2D image, positive exposure, and calibration
dictionary, apply_calibration called with processing_lvl = 0 — and
likewise whenever calibration_data is None — returns its input image
unchanged (pass-through). -/
theorem apply_calibration_passthrough (image : Image)
    (calib : Option CalibrationData) (lvl : ℤ) (exposure : ℚ)
    (hlvl : 0 ≤ lvl ∧ lvl ≤ 4) (hexp : 0 < exposure) :
    applyCalibration image calib 0 exposure = some image ∧
    applyCalibration image none lvl exposure = some image := by
  constructor
  · cases calib with
    | none => simp [applyCalibration, hexp]
    | some cd => simp [applyCalibration, hexp]
  · simp [applyCalibration, hlvl.1, hlvl.2, hexp]

/-- Witness for C10 at a concrete 2×2 image with calibration data
present. -/
theorem apply_calibration_passthrough_witness :
    applyCalibration [[1, 2], [3, 4]]
      (some ⟨some [[2, 2], [2, 2]], true, some [1, 1]⟩) 0 10 =
      some [[1, 2], [3, 4]] :=
  (apply_calibration_passthrough [[1, 2], [3, 4]]
    (some ⟨some [[2, 2], [2, 2]], true, some [1, 1]⟩) 2 10
    (by norm_num) (by norm_num)).1

end OpenHSI
